import Mathlib

/-!
Verification development for the email-payment-processor repository.

The definitions below are shallow embeddings of the Python functions in
`src/file_processor.py`, `src/webhook_sender.py` and `src/email_tracking.py`.
Text is modelled as `List Char`, CSV cell values as `Option String`
(`none` standing for `None`/`NaN`), numbers as `Nat`/`Int`/`Rat`.
-/

set_option maxRecDepth 100000

/-! ## Character classes (Python `re` / `str` semantics) -/

/-- Python whitespace (`\s`, `str.strip`, `str.isspace`): the ASCII
whitespace characters plus NEL and NBSP. -/
def pyIsSpace (c : Char) : Bool :=
  c = ' ' || c = '\t' || c = '\n' || c = '\r' ||
  c = '\x0b' || c = '\x0c' || c.toNat = 0x85 || c.toNat = 0xa0

/-- Cyrillic letters (the basic Unicode Cyrillic block, which contains
all letters appearing in the repository's label words). -/
def isCyrillic (c : Char) : Bool :=
  0x400 ≤ c.toNat && c.toNat ≤ 0x4ff

/-- Python word character (`\w`) restricted to the scripts the program
works with: ASCII letters, decimal digits, underscore, Cyrillic letters. -/
def pyIsWordChar (c : Char) : Bool :=
  c.isAlpha || c.isDigit || c = '_' || isCyrillic c

/-- Case folding used by `re.IGNORECASE` on the program's patterns:
ASCII letters and Cyrillic letters (А–Я and Ё) are lowered. -/
def lcRu (c : Char) : Char :=
  if c.isUpper then c.toLower
  else if 0x410 ≤ c.toNat ∧ c.toNat ≤ 0x42f then Char.ofNat (c.toNat + 0x20)
  else if c.toNat = 0x401 then Char.ofNat 0x451
  else c

/-- Python `str.strip()`: remove leading and trailing whitespace. -/
def pyStrip (l : List Char) : List Char :=
  ((l.dropWhile pyIsSpace).reverse.dropWhile pyIsSpace).reverse

/-- Python `int()` of a run of decimal digit characters. -/
def digitsToNat (ds : List Char) : Nat :=
  ds.foldl (fun a c => a * 10 + (c.toNat - 48)) 0

/-! ## `FileProcessor._extract_payment_id` (file_processor.py 220-285) -/

/-- One optional `[-_]` separator: consume it when present. -/
def sepOpt : List Char → List Char × List Char
  | c :: t => if c = '-' ∨ c = '_' then ([c], t) else ([], c :: t)
  | [] => ([], [])

/-- Try the pattern `[Cc][-_]?\d{6,}` anchored at the head of the text;
return the matched characters. -/
def matchContractAt (cs : List Char) : Option (List Char) :=
  match cs with
  | [] => none
  | c :: rest =>
    if c = 'C' ∨ c = 'c' then
      if 6 ≤ ((sepOpt rest).2.takeWhile Char.isDigit).length then
        some (c :: ((sepOpt rest).1 ++ (sepOpt rest).2.takeWhile Char.isDigit))
      else none
    else none

/-- Search `re.search(r'[Cc][-_]?\d{6,}', text)`: leftmost match. -/
def findContract : List Char → Option (List Char)
  | [] => none
  | c :: cs =>
    match matchContractAt (c :: cs) with
    | some r => some r
    | none => findContract cs

/-- Try the pattern `[A-Za-z]{2,5}[-_]?\d{4,}` anchored at the head of the
text.  At a given start only the maximal letter run (capped at 5 yet then
followed by a further letter, hence failing) can complete the match, so the
greedy run with a 2..5 length test is the exact backtracking semantics. -/
def matchRefAt (cs : List Char) : Option (List Char) :=
  if 2 ≤ (cs.takeWhile Char.isAlpha).length ∧ (cs.takeWhile Char.isAlpha).length ≤ 5 then
    if 4 ≤ (((sepOpt (cs.drop (cs.takeWhile Char.isAlpha).length)).2.takeWhile Char.isDigit)).length then
      some (cs.takeWhile Char.isAlpha ++ (sepOpt (cs.drop (cs.takeWhile Char.isAlpha).length)).1
        ++ (sepOpt (cs.drop (cs.takeWhile Char.isAlpha).length)).2.takeWhile Char.isDigit)
    else none
  else none

/-- Search `re.search(r'[A-Za-z]{2,5}[-_]?\d{4,}', text)`: leftmost match. -/
def findRef : List Char → Option (List Char)
  | [] => none
  | c :: cs =>
    match matchRefAt (c :: cs) with
    | some r => some r
    | none => findRef cs

/-- Case-insensitive literal at the head of the text (pattern given in
lower case); returns the remainder on success. -/
def ciStarts : List Char → List Char → Option (List Char)
  | [], rest => some rest
  | _ :: _, [] => none
  | p :: ps, c :: t => if lcRu c = p then ciStarts ps t else none

/-- The label alternation `(?:счёт|счет|№|#|ID|id)` under `re.IGNORECASE`
(`ID` and `id` coincide case-insensitively). -/
def tryLabel (cs : List Char) : Option (List Char) :=
  match ciStarts "счёт".data cs with
  | some r => some r
  | none =>
  match ciStarts "счет".data cs with
  | some r => some r
  | none =>
  match ciStarts "№".data cs with
  | some r => some r
  | none =>
  match ciStarts "#".data cs with
  | some r => some r
  | none => ciStarts "id".data cs

/-- Try `(?:счёт|счет|№|#|ID|id)\s*[№#]?\s*(\d{4,})` anchored at the head;
return the captured digit run and the remainder after the whole match. -/
def matchLabelAt (cs : List Char) : Option (List Char × List Char) :=
  match tryLabel cs with
  | none => none
  | some r1 =>
    let r2 := r1.dropWhile pyIsSpace
    let r3 := match r2 with
      | c :: t => if c = '№' ∨ c = '#' then t else c :: t
      | [] => ([] : List Char)
    let r4 := r3.dropWhile pyIsSpace
    let ds := r4.takeWhile Char.isDigit
    if 4 ≤ ds.length then some (ds, r4.dropWhile Char.isDigit) else none

/-- Fuelled scan implementing `re.findall` for the label pattern:
non-overlapping matches, scanning left to right. -/
def labelNumsAux : Nat → List Char → List (List Char)
  | 0, _ => []
  | _ + 1, [] => []
  | fuel + 1, c :: cs =>
    match matchLabelAt (c :: cs) with
    | some (ds, rest) => ds :: labelNumsAux fuel rest
    | none => labelNumsAux fuel cs

/-- Scan `re.findall(r'(?:счёт|счет|№|#|ID|id)\s*[№#]?\s*(\d{4,})', text, re.IGNORECASE)`. -/
def labelNumbers (cs : List Char) : List (List Char) :=
  labelNumsAux cs.length cs

/-- Scan for `\b\d{4,}\b`: maximal digit runs of length at least 4 whose
neighbouring characters (when present) are not word characters.
`beforeOk` records whether the boundary before the current run holds;
`run` is the current digit run, reversed. -/
def bareAux : Bool → List Char → List Char → List (List Char)
  | beforeOk, run, [] =>
    if 4 ≤ run.length ∧ beforeOk then [run.reverse] else []
  | beforeOk, run, c :: cs =>
    if c.isDigit then bareAux beforeOk (c :: run) cs
    else
      let rest := bareAux (!pyIsWordChar c) [] cs
      if 4 ≤ run.length ∧ beforeOk ∧ ¬pyIsWordChar c then run.reverse :: rest
      else rest

/-- Scan `re.findall(r'\b\d{4,}\b', text)`. -/
def bareNumbers (cs : List Char) : List (List Char) :=
  bareAux true [] cs

/-- The numeric filter of fallback steps 3 and 4:
`num >= 2400 and num != 8000` on the integer value of the digit run. -/
def idCond (ds : List Char) : Bool :=
  decide (2400 ≤ digitsToNat ds) && decide (digitsToNat ds ≠ 8000)

/-- Loop `for num_str in numbers: if cond: return num_str` — the first digit run
passing the 2400/8000 filter. -/
def pickNumber (l : List (List Char)) : Option (List Char) :=
  l.find? idCond

/-- Character kept by `re.sub(r'[^\w\s-]', '', text)`. -/
def pyKeep (c : Char) : Bool :=
  pyIsWordChar c || pyIsSpace c || c = '-'

/-- The ordered fallback chain of `_extract_payment_id` on the stripped
non-empty text: the first rule that produces a value wins; `none` means
every rule fell through to the final `return "-"`. -/
def extractChain (text : List Char) : Option (List Char) :=
  match findContract text with
  | some r => some r
  | none =>
  match findRef text with
  | some r => some r
  | none =>
  match pickNumber (labelNumbers text) with
  | some ds => some ds
  | none =>
  match pickNumber (bareNumbers text) with
  | some ds => some ds
  | none =>
    if (text.filter pyKeep).take 8 ≠ [] ∧ (text.filter pyKeep).take 8 ≠ text then
      some ((text.filter pyKeep).take 8)
    else none

/-- Embedding of `FileProcessor._extract_payment_id`: the full ordered fallback chain.
The input is the raw cell value, `none` standing for `None`/`NaN`. -/
def extract_payment_id (v : Option String) : String :=
  match v with
  | none => "-"
  | some s =>
    if pyStrip s.data = [] then "-"
    else
      match extractChain (pyStrip s.data) with
      | some r => ⟨r⟩
      | none => "-"

/-! ## Python `float()` and the webhook amount/currency helpers
(webhook_sender.py 94-145, file_processor.py 307-336) -/

/-- Result of a successful Python `float()` conversion.  A finite value
is kept exactly as the unreduced decimal fraction `n / 10 ^ scale` read
from the literal (mantissa and power-of-ten denominator). -/
inductive PyFloat where
  | num (n : ℤ) (scale : ℕ)
  | inf (neg : Bool)
  | nan
  deriving DecidableEq

/-- The rational value denoted by a finite `PyFloat`. -/
def PyFloat.val : PyFloat → ℚ
  | .num n scale => (n : ℚ) / 10 ^ scale
  | _ => 0

/-- Consume a digit group continuation in which single underscores may
appear between digits (Python numeric-literal rule); returns the digits
seen (underscores dropped) and the unconsumed remainder. -/
def takeDigitsUAux : List Char → List Char × List Char
  | [] => ([], [])
  | c :: cs =>
    if c.isDigit then
      let p := takeDigitsUAux cs
      (c :: p.1, p.2)
    else if c = '_' then
      match cs with
      | d :: ds2 =>
        if d.isDigit then
          let p := takeDigitsUAux ds2
          (d :: p.1, p.2)
        else ([], c :: cs)
      | [] => ([], [c])
    else ([], c :: cs)

/-- A digit group must begin with a digit. -/
def takeDigitsU (t : List Char) : Option (List Char × List Char) :=
  match t with
  | c :: cs =>
    if c.isDigit then
      let p := takeDigitsUAux cs
      some (c :: p.1, p.2)
    else none
  | [] => none

/-- Build the value from sign, integer digits, fractional digits and
decimal exponent: `±(ip.fp) * 10^ex` as an exact decimal fraction. -/
def mkPyNum (neg : Bool) (ip fp : List Char) (ex : Int) : PyFloat :=
  let m : Int := (digitsToNat ip * 10 ^ fp.length + digitsToNat fp : Nat)
  let m : Int := if neg then -m else m
  if 0 ≤ ex then .num (m * 10 ^ ex.toNat) fp.length
  else .num m (fp.length + (-ex).toNat)

/-- Parse the optional exponent part and require the end of input. -/
def parseExpEnd (neg : Bool) (ip fp : List Char) (r : List Char) : Option PyFloat :=
  match r with
  | [] => some (mkPyNum neg ip fp 0)
  | e :: r1 =>
    if e = 'e' ∨ e = 'E' then
      let sp : Bool × List Char :=
        match r1 with
        | '-' :: t => (true, t)
        | '+' :: t => (false, t)
        | _ => (false, r1)
      match takeDigitsU sp.2 with
      | some (ed, []) =>
        let en : Int := if sp.1 then -(digitsToNat ed : Int) else (digitsToNat ed : Int)
        some (mkPyNum neg ip fp en)
      | _ => none
    else none

/-- Python `float(str)`: strip whitespace, optional sign, then either
`inf`/`infinity`/`nan` (case-insensitive) or a decimal literal
`digits [. digits] [exp]` / `. digits [exp]`, consuming the whole string. -/
def parsePyFloat (s : String) : Option PyFloat :=
  let t := pyStrip s.data
  let sp : Bool × List Char :=
    match t with
    | '-' :: r => (true, r)
    | '+' :: r => (false, r)
    | _ => (false, t)
  let low := sp.2.map Char.toLower
  if low = "inf".data ∨ low = "infinity".data then some (.inf sp.1)
  else if low = "nan".data then some .nan
  else
    match takeDigitsU sp.2 with
    | some (ip, r1) =>
      match r1 with
      | '.' :: r2 =>
        match takeDigitsU r2 with
        | some (fp, r3) => parseExpEnd sp.1 ip fp r3
        | none => parseExpEnd sp.1 ip [] r2
      | _ => parseExpEnd sp.1 ip [] r1
    | none =>
      match sp.2 with
      | '.' :: r2 =>
        match takeDigitsU r2 with
        | some (fp, r3) => parseExpEnd sp.1 [] fp r3
        | none => none
      | _ => none

/-- The argument `float()` receives inside `_is_valid_payment`:
`str(amount).replace(',', '').replace('$', '').replace('€', '').replace('₽', '')`. -/
def cleanAmountValidate (s : String) : String :=
  ⟨s.data.filter (fun c => !(c = ',' || c = '$' || c = '€' || c = '₽'))⟩

/-- Embedding of `FileProcessor._is_valid_payment` (file_processor.py 307-336), on the
`amount` and `transaction_id` entries of the record (`none` = `None`). -/
def is_valid_payment (amount transaction_id : Option String) : Bool :=
  match amount with
  | none => false
  | some a =>
    if a = "" then false
    else
      match transaction_id with
      | none => false
      | some t =>
        if t = "" then false
        else (parsePyFloat (cleanAmountValidate a)).isSome

/-- A JSON number produced by `_format_amount`: Python `int` or `float`. -/
inductive PyVal where
  | int (n : ℤ)
  | float (f : PyFloat)
  deriving DecidableEq

/-- The string `_format_amount` passes to `float()`:
`str(amount).replace(',', '.').replace('$', '').replace('€', '').replace('₽', '').strip()`. -/
def cleanAmountFormat (s : String) : String :=
  ⟨pyStrip ((s.data.map (fun c => if c = ',' then '.' else c)).filter
    (fun c => !(c = '$' || c = '€' || c = '₽')))⟩

/-- Python `float.is_integer`: the denominator divides the mantissa. -/
def PyFloat.isInteger : PyFloat → Bool
  | .num n scale => n % (10 ^ scale : Int) = 0
  | _ => false

/-- Embedding of `WebhookSender._format_amount` (webhook_sender.py 94-115): `None` and
parse failures yield `none`; whole numbers are converted with `int()`. -/
def format_amount (amount : Option String) : Option PyVal :=
  match amount with
  | none => none
  | some a =>
    match parsePyFloat (cleanAmountFormat a) with
    | none => none
    | some f => if f.isInteger then
        match f with
        | .num n scale => some (.int (n / 10 ^ scale))
        | _ => none
      else some (.float f)

/-- The `currency_map` dict of `_extract_currency`, in insertion order. -/
def currencyMap : List (Char × String) :=
  [('$', "USD"), ('€', "EUR"), ('₽', "RUB"), ('£', "GBP"), ('¥', "JPY")]

/-- Embedding of `WebhookSender._extract_currency` (webhook_sender.py 117-145). -/
def extract_currency (amount : Option String) : String :=
  match amount with
  | none => "USD"
  | some a =>
    match currencyMap.find? (fun p => a.data.contains p.1) with
    | some p => p.2
    | none => "RUB"

/-! ## CSV extraction (process_csv_file, file_processor.py 129-218) -/

/-- A parsed table row: source column name to raw cell value
(`none` = `NaN`). -/
abbrev Row := List (String × Option String)

/-- Lookup `row[col]`: the cell under a column, `NaN` when the row lacks it. -/
def getCell (r : Row) (col : String) : Option String :=
  (r.lookup col).getD none

/-- The portion of `ProcessingConfig` that `process_csv_file` reads. -/
structure CsvConfig where
  csv_filter_column : String
  csv_filter_value : String
  payment_amount_column : String
  payment_date_column : String
  payment_id_column : String
  customer_id_column : String

/-- A parsed dataframe: its column list and its rows. -/
structure Table where
  cols : List String
  rows : List Row

/-- The row filter of `process_csv_file` (lines 162-172):
`df[df[filter_column] != filter_value]` when the filter column exists
(a `NaN` cell compares unequal, so such rows are kept), the whole
row list otherwise. -/
def filterRows (cfg : CsvConfig) (t : Table) : List Row :=
  if cfg.csv_filter_column ∈ t.cols then
    t.rows.filter (fun r => getCell r cfg.csv_filter_column ≠ some cfg.csv_filter_value)
  else t.rows

/-- Embedding of `FileProcessor._clean_value` (file_processor.py 287-305) on a cell. -/
def clean_value (v : Option String) : Option String :=
  match v with
  | none => none
  | some s =>
    let t : String := ⟨pyStrip s.data⟩
    if t = "" ∨ (⟨t.data.map lcRu⟩ : String) ∈ ["null", "none", "n/a"] then none
    else some t

/-- One candidate payment record as built by `process_csv_file`. -/
structure Candidate where
  amount : Option String
  date : Option String
  transaction_id : String
  customer_id : Option String
  raw_data : Row
  source_file : String
  deriving DecidableEq

/-- Build the candidate for one retained row (lines 184-205): mapped
columns are read and cleaned; a missing mapped column yields `none`,
except `transaction_id` which defaults to the sentinel. -/
def buildCandidate (cfg : CsvConfig) (cols : List String) (src : String) (r : Row) :
    Candidate where
  amount :=
    if cfg.payment_amount_column ∈ cols then clean_value (getCell r cfg.payment_amount_column)
    else none
  date :=
    if cfg.payment_date_column ∈ cols then clean_value (getCell r cfg.payment_date_column)
    else none
  transaction_id :=
    if cfg.payment_id_column ∈ cols then extract_payment_id (getCell r cfg.payment_id_column)
    else "-"
  customer_id :=
    if cfg.customer_id_column ∈ cols then clean_value (getCell r cfg.customer_id_column)
    else none
  raw_data := r
  source_file := src

/-- All candidates produced by CSV extraction, before validation. -/
def csvCandidates (cfg : CsvConfig) (t : Table) (src : String) : List Candidate :=
  (filterRows cfg t).map (buildCandidate cfg t.cols src)

/-- Embedding of `process_csv_file`: the candidates that pass `_is_valid_payment`
(on the record dict, `transaction_id` is always a present string). -/
def process_csv_file (cfg : CsvConfig) (t : Table) (src : String) : List Candidate :=
  (csvCandidates cfg t src).filter
    (fun c => is_valid_payment c.amount (some c.transaction_id))

/-! ## Webhook batch dispatch (send_webhook_batch, webhook_sender.py 364-425) -/

/-- Python `range(start, stop, step)` for a positive step. -/
def pyRange (start stop step : Nat) : List Nat :=
  List.range' start ((stop - start + step - 1) / step) step

/-- The consecutive slices `payments[i:i+batch_size]` taken by the
dispatch loop. -/
def batchesOf (payments : List α) (batchSize : Nat) : List (List α) :=
  (pyRange 0 payments.length batchSize).map
    (fun i => (payments.drop i).take batchSize)

/-- The result dictionary of `send_webhook_batch`; `successRate` is
absent (`none`) on the empty-input and exception paths. -/
structure BatchResult where
  success : Bool
  totalPayments : Nat
  batchesSent : Nat
  failedBatches : Nat
  successRate : Option ℚ
  deriving DecidableEq

/-- The dispatch loop's counters `(batches_sent, failed_batches)`. -/
def batchCounts (send : List α → Bool) (batches : List (List α)) : Nat × Nat :=
  batches.foldl (fun acc b => if send b then (acc.1 + 1, acc.2) else (acc.1, acc.2 + 1)) (0, 0)

/-- Embedding of `WebhookSender.send_webhook_batch`, with delivery of one batch
abstracted by the oracle `send` (the outcome of `send_webhook`).
`batchSize = 0` makes `range` raise `ValueError`, caught by the
enclosing handler. -/
def send_webhook_batch (send : List α → Bool) (payments : List α) (batchSize : Nat) :
    BatchResult :=
  if payments.isEmpty then ⟨true, 0, 0, 0, none⟩
  else if batchSize = 0 then ⟨false, payments.length, 0, 0, none⟩
  else
    ⟨(batchCounts send (batchesOf payments batchSize)).2 = 0,
      payments.length,
      (batchCounts send (batchesOf payments batchSize)).1,
      (batchCounts send (batchesOf payments batchSize)).2,
      some (if 0 < (batchCounts send (batchesOf payments batchSize)).1
            + (batchCounts send (batchesOf payments batchSize)).2 then
          ((batchCounts send (batchesOf payments batchSize)).1 : ℚ)
            / (((batchCounts send (batchesOf payments batchSize)).1 : ℚ)
              + ((batchCounts send (batchesOf payments batchSize)).2 : ℚ))
        else 0)⟩

/-! ## Webhook payload formatting (format_payment_data, webhook_sender.py 30-92) -/

/-- The fields of a payment record that `format_payment_data` reads. -/
structure Payment where
  transaction_id : Option String
  customer_id : Option String
  amount : Option String
  date : Option String
  raw_data : Row
  source_file : Option String

/-- One formatted payment object of the payload. -/
structure FormattedPayment where
  transaction_id : Option String
  customer_id : Option String
  amount : Option PyVal
  currency : String
  purpose : Option String
  source_file : Option String
  deriving DecidableEq

/-- The `additional_fields` list copied into `metadata`. -/
def additionalFields : List String :=
  ["description", "reference", "account", "bank", "method", "fee", "tax", "net_amount"]

/-- A payment triggers the `formatted_payment["metadata"][field]` write:
some additional field is present in `raw_data` with a non-`None` value. -/
def metadataTrigger (p : Payment) : Bool :=
  additionalFields.any (fun f =>
    match p.raw_data.lookup f with
    | some (some _) => true
    | _ => false)

/-- Expression `payment.get("source_file", "").split("/")[-1] if ... else None`. -/
def baseName (src : Option String) : Option String :=
  match src with
  | none => none
  | some s => if s = "" then none else some ⟨(s.data.reverse.takeWhile (fun c => c ≠ '/')).reverse⟩

/-- Formatting of one payment; the `"metadata"` key of the fresh dict was
never initialised, so the first additional-field write raises `KeyError`. -/
def formatOnePayment (p : Payment) : Except Unit FormattedPayment :=
  if metadataTrigger p then .error ()
  else .ok
    { transaction_id := p.transaction_id
      customer_id := p.customer_id
      amount := format_amount p.amount
      currency := extract_currency p.amount
      purpose :=
        match (p.raw_data.lookup "Назначение платежа").getD none with
        | some v => some v
        | none => (p.raw_data.lookup "назначение платежа").getD none
      source_file := baseName p.source_file }

/-- Sequential formatting of the batch; the first raised error aborts. -/
def formatAll : List Payment → Except Unit (List FormattedPayment)
  | [] => .ok []
  | p :: ps =>
    match formatOnePayment p with
    | .error e => .error e
    | .ok fp =>
      match formatAll ps with
      | .error e => .error e
      | .ok fps => .ok (fp :: fps)

/-- The payload of `format_payment_data`: `isError` marks the
catch-all fallback payload (`payments_count 0`, empty list). -/
structure WebhookData where
  paymentsCount : Nat
  payments : List FormattedPayment
  isError : Bool
  deriving DecidableEq

/-- Embedding of `WebhookSender.format_payment_data` (webhook_sender.py 30-92). -/
def format_payment_data (ps : List Payment) : WebhookData :=
  match formatAll ps with
  | .ok fps => ⟨ps.length, fps, false⟩
  | .error _ => ⟨0, [], true⟩

/-! ## Processed-email ledger (email_tracking.py 43-59) -/

/-- In-memory set and last persisted set of processed email ids. -/
structure TrackerState where
  mem : Finset ℕ
  disk : Finset ℕ
  deriving DecidableEq

/-- Python `lst[-n:]`: the last `n` elements — except that `lst[-0:]`
is the whole list. -/
def pySliceLast (l : List ℕ) (n : ℕ) : List ℕ :=
  if n = 0 then l else l.drop (l.length - n)

/-- Embedding of `EmailTracker.cleanup_old_entries` (email_tracking.py 53-59):
prune to `sorted(processed_emails)[-keep_last_n:]` and save, but only
when the set has more than `keep_last_n` members. -/
def cleanup_old_entries (st : TrackerState) (keepLastN : ℕ) : TrackerState :=
  if keepLastN < st.mem.card then
    let kept := (pySliceLast (st.mem.sort (· ≤ ·)) keepLastN).toFinset
    ⟨kept, kept⟩
  else st

/-! ## Helper lemmas -/

theorem sepOpt_fst (l : List Char) :
    (sepOpt l).1 = [] ∨ (sepOpt l).1 = ['-'] ∨ (sepOpt l).1 = ['_'] := by
  cases l with
  | nil => left; rfl
  | cons a t =>
    by_cases h1 : a = '-'
    · right; left; simp [sepOpt, h1]
    · by_cases h2 : a = '_'
      · right; right; simp [sepOpt, h2]
      · left; simp [sepOpt, h1, h2]

theorem matchContractAt_shape {cs r : List Char} (h : matchContractAt cs = some r) :
    ∃ c sep ds, (c = 'C' ∨ c = 'c') ∧ (sep = [] ∨ sep = ['-'] ∨ sep = ['_']) ∧
      6 ≤ ds.length ∧ (∀ d ∈ ds, d.isDigit = true) ∧ r = c :: (sep ++ ds) := by
  cases cs with
  | nil => simp [matchContractAt] at h
  | cons c rest =>
    simp only [matchContractAt] at h
    split at h
    case isTrue hc =>
      split at h
      case isTrue hlen =>
        injection h with h1
        exact ⟨c, (sepOpt rest).1, (sepOpt rest).2.takeWhile Char.isDigit,
          hc, sepOpt_fst rest, hlen,
          fun d hd => List.mem_takeWhile_imp hd, h1.symm⟩
      case isFalse => cases h
    case isFalse => cases h

theorem findContract_shape : ∀ {t r : List Char}, findContract t = some r →
    ∃ c sep ds, (c = 'C' ∨ c = 'c') ∧ (sep = [] ∨ sep = ['-'] ∨ sep = ['_']) ∧
      6 ≤ ds.length ∧ (∀ d ∈ ds, d.isDigit = true) ∧ r = c :: (sep ++ ds) := by
  intro t
  induction t with
  | nil => intro r h; simp [findContract] at h
  | cons c cs ih =>
    intro r h
    rw [findContract] at h
    cases hm : matchContractAt (c :: cs) with
    | some m =>
      rw [hm] at h
      injection h with h1
      exact h1 ▸ matchContractAt_shape hm
    | none =>
      rw [hm] at h
      exact ih h

theorem findContract_ne_nil {t r : List Char} (h : findContract t = some r) : r ≠ [] := by
  rcases findContract_shape h with ⟨c, sep, ds, _, _, _, _, rfl⟩
  simp

theorem matchRefAt_ne_nil {cs r : List Char} (h : matchRefAt cs = some r) : r ≠ [] := by
  simp only [matchRefAt] at h
  split at h
  case isTrue hlen =>
    split at h
    case isTrue =>
      injection h with h1
      intro hnil
      rw [← h1] at hnil
      rw [List.append_assoc] at hnil
      rcases List.append_eq_nil.mp hnil with ⟨h2, _⟩
      rw [h2] at hlen
      simp at hlen
    case isFalse => cases h
  case isFalse => cases h

theorem findRef_ne_nil : ∀ {t r : List Char}, findRef t = some r → r ≠ [] := by
  intro t
  induction t with
  | nil => intro r h; simp [findRef] at h
  | cons c cs ih =>
    intro r h
    rw [findRef] at h
    cases hm : matchRefAt (c :: cs) with
    | some m =>
      rw [hm] at h
      injection h with h1
      exact h1 ▸ matchRefAt_ne_nil hm
    | none =>
      rw [hm] at h
      exact ih h

theorem pickNumber_sound {l : List (List Char)} {ds : List Char}
    (h : pickNumber l = some ds) :
    2400 ≤ digitsToNat ds ∧ digitsToNat ds ≠ 8000 := by
  have hc := List.find?_some h
  simpa [idCond] using hc

theorem pickNumber_ne_nil {l : List (List Char)} {ds : List Char}
    (h : pickNumber l = some ds) : ds ≠ [] := by
  intro hnil
  have h1 := (pickNumber_sound h).1
  rw [hnil] at h1
  simp [digitsToNat] at h1

theorem strMk_ne_empty {l : List Char} (h : l ≠ []) : (⟨l⟩ : String) ≠ "" := by
  intro he
  exact h (congrArg String.data he)

theorem extractChain_ne_nil : ∀ {text r : List Char}, extractChain text = some r → r ≠ [] := by
  intro text r h
  rw [extractChain] at h
  cases h1 : findContract text with
  | some x =>
    rw [h1] at h
    injection h with h1e
    exact h1e ▸ findContract_ne_nil h1
  | none =>
    rw [h1] at h
    cases h2 : findRef text with
    | some x =>
      rw [h2] at h
      injection h with h2e
      exact h2e ▸ findRef_ne_nil h2
    | none =>
      rw [h2] at h
      cases h3 : pickNumber (labelNumbers text) with
      | some x =>
        rw [h3] at h
        injection h with h3e
        exact h3e ▸ pickNumber_ne_nil h3
      | none =>
        rw [h3] at h
        cases h4 : pickNumber (bareNumbers text) with
        | some x =>
          rw [h4] at h
          injection h with h4e
          exact h4e ▸ pickNumber_ne_nil h4
        | none =>
          rw [h4] at h
          by_cases hcl : (text.filter pyKeep).take 8 ≠ [] ∧ (text.filter pyKeep).take 8 ≠ text
          · rw [if_pos hcl] at h
            injection h with h5e
            exact h5e ▸ hcl.1
          · rw [if_neg hcl] at h
            cases h

theorem extract_payment_id_ne_empty (v : Option String) : extract_payment_id v ≠ "" := by
  cases v with
  | none => simp [extract_payment_id]
  | some s =>
    rw [extract_payment_id]
    split
    · simp
    · cases hc : extractChain (pyStrip s.data) with
      | some r => exact strMk_ne_empty (extractChain_ne_nil hc)
      | none => simp

/-! ## Claim theorems -/

/-- C1: in fallback steps 3 (labelled number) and 4 (bare word-bounded
number) a digit run is returned only when its integer value is at least
2400 and different from 8000; `"Счёт №2497 оплата"` yields `"2497"`, and
`"оплата 8000 руб"` never yields `"8000"` — it falls through to the
truncation rule, producing `"оплата 8"`. -/
theorem C1_number_threshold_filter :
    (∀ t ds, pickNumber (labelNumbers t) = some ds →
      2400 ≤ digitsToNat ds ∧ digitsToNat ds ≠ 8000) ∧
    (∀ t ds, pickNumber (bareNumbers t) = some ds →
      2400 ≤ digitsToNat ds ∧ digitsToNat ds ≠ 8000) ∧
    extract_payment_id (some "Счёт №2497 оплата") = "2497" ∧
    extract_payment_id (some "оплата 8000 руб") = "оплата 8" ∧
    extract_payment_id (some "оплата 8000 руб") ≠ "8000" :=
  ⟨fun _ _ h => pickNumber_sound h, fun _ _ h => pickNumber_sound h,
    by decide, by decide, by decide⟩

/-- Witness for C1 at a concrete input: the digit run `"2497"` picked
from `"счёт 2497"` satisfies the 2400/8000 filter. -/
theorem C1_number_threshold_filter_witness :
    2400 ≤ digitsToNat "2497".data ∧ digitsToNat "2497".data ≠ 8000 :=
  C1_number_threshold_filter.1 "счёт 2497".data "2497".data (by decide)

/-- C3 is false as stated: the letter `C` of the contract pattern is
mandatory, so the text `"123456"`, which contains a run of 6 digits, is
not matched by the first rule (it is decided by the bare-digit rule). -/
theorem C3_counterexample :
    findContract "123456".data = none ∧
    extract_payment_id (some "123456") = "123456" := by decide

/-- C3 (amended): the first rule matches a mandatory case-insensitive
letter `C`, an optional `-`/`_` separator and 6 or more digits, returning
the matched text; `"C_516913"` yields `"C_516913"`. -/
theorem C3_contract_rule :
    extract_payment_id (some "C_516913") = "C_516913" ∧
    (∀ t r, findContract t = some r →
      ∃ c sep ds, (c = 'C' ∨ c = 'c') ∧ (sep = [] ∨ sep = ['-'] ∨ sep = ['_']) ∧
        6 ≤ ds.length ∧ (∀ d ∈ ds, d.isDigit = true) ∧ r = c :: (sep ++ ds)) :=
  ⟨by decide, fun _ _ h => findContract_shape h⟩

/-- Witness for C3 (amended) at the concrete input `"C_516913"`. -/
theorem C3_contract_rule_witness :
    ∃ c sep ds, (c = 'C' ∨ c = 'c') ∧ (sep = [] ∨ sep = ['-'] ∨ sep = ['_']) ∧
      6 ≤ ds.length ∧ (∀ d ∈ ds, d.isDigit = true) ∧
      "C_516913".data = c :: (sep ++ ds) :=
  C3_contract_rule.2 "C_516913".data "C_516913".data (by decide)

/-- C4: `_extract_payment_id` never returns the empty string, and every
candidate produced by CSV extraction (present or absent id column alike)
carries a non-empty `transaction_id`. -/
theorem C4_transaction_id_never_empty :
    (∀ v, extract_payment_id v ≠ "") ∧
    (∀ cfg t src c, c ∈ csvCandidates cfg t src → c.transaction_id ≠ "") := by
  refine ⟨extract_payment_id_ne_empty, ?_⟩
  intro cfg t src c hc
  rcases List.mem_map.mp hc with ⟨r, _, rfl⟩
  show (buildCandidate cfg t.cols src r).transaction_id ≠ ""
  simp only [buildCandidate]
  split
  · exact extract_payment_id_ne_empty _
  · simp

/-- Witness for C4: a candidate built from a table without the
configured id column has the non-empty sentinel id. -/
theorem C4_transaction_id_never_empty_witness :
    (buildCandidate ⟨"status", "completed", "amount", "date", "transaction_id", "customer_id"⟩
      [] "f.csv" []).transaction_id ≠ "" :=
  C4_transaction_id_never_empty.2
    ⟨"status", "completed", "amount", "date", "transaction_id", "customer_id"⟩
    ⟨[], [[]]⟩ "f.csv"
    (buildCandidate ⟨"status", "completed", "amount", "date", "transaction_id", "customer_id"⟩
      [] "f.csv" [])
    (by decide)

/-- C5: `_is_valid_payment` rejects exactly when the amount is absent or
empty, the transaction id is absent or empty, or the amount (with
`, $ € ₽` removed) fails to parse as a float; `amount="1,234.56"` with
`transaction_id="-"` is valid, and a `None` amount is always invalid. -/
theorem C5_validation_rules :
    (∀ a t, is_valid_payment a t = false ↔
      (a = none ∨ a = some "" ∨ t = none ∨ t = some "" ∨
        ∃ s, a = some s ∧ parsePyFloat (cleanAmountValidate s) = none)) ∧
    is_valid_payment (some "1,234.56") (some "-") = true ∧
    (∀ t, is_valid_payment none t = false) := by
  refine ⟨?_, by decide, fun t => rfl⟩
  intro a t
  cases a with
  | none => simp [is_valid_payment]
  | some s =>
    cases t with
    | none =>
      by_cases hs : s = "" <;> simp [is_valid_payment, hs]
    | some u =>
      by_cases hs : s = ""
      · simp [is_valid_payment, hs]
      · by_cases hu : u = ""
        · simp [is_valid_payment, hs, hu]
        · cases hp : parsePyFloat (cleanAmountValidate s) with
          | none => simp [is_valid_payment, hs, hu, hp]
          | some f => simp [is_valid_payment, hs, hu, hp]

/-- C6: with the filter column present, rows whose cell equals the filter
value are excluded; with the filter column absent, all rows are kept. -/
theorem C6_row_filter :
    (∀ cfg t r, cfg.csv_filter_column ∈ t.cols → r ∈ t.rows →
      getCell r cfg.csv_filter_column = some cfg.csv_filter_value →
      r ∉ filterRows cfg t) ∧
    (∀ cfg t, cfg.csv_filter_column ∉ t.cols → filterRows cfg t = t.rows) := by
  constructor
  · intro cfg t r hcol _ hv hmem
    rw [filterRows, if_pos hcol] at hmem
    have hp := List.of_mem_filter hmem
    simp [hv] at hp
  · intro cfg t hcol
    rw [filterRows, if_neg hcol]

/-- Witness for C6: the single row matching the filter value is excluded. -/
theorem C6_row_filter_witness :
    [("status", some "completed")] ∉
      filterRows ⟨"status", "completed", "amount", "date", "transaction_id", "customer_id"⟩
        ⟨["status"], [[("status", some "completed")]]⟩ :=
  C6_row_filter.1 _ _ _ (by decide) (by decide) (by decide)

/-- C7 is false as stated: `_format_amount` replaces the comma of
`"1,234.56"` with a dot, producing the unparseable `"1.234.56"`, so the
result is `None` rather than the number 1234.56. -/
theorem C7_counterexample :
    format_amount (some "1,234.56") = none ∧
    format_amount (some "1,234.56") ≠ some (.float (.num 123456 2)) ∧
    format_amount (some "1,234.56") ≠ some (.int 1234) := by decide

/-- C7 (amended): the amount is coerced by replacing `,` with `.` and
removing currency symbols; whole numbers are represented without a
fractional component; a missing or unparseable amount yields `None` and
never an exception; `"1,234.56"` yields `None` while the decimal-comma
form `"1234,56"` yields 1234.56. -/
theorem C7_format_amount :
    format_amount none = none ∧
    (∀ s, parsePyFloat (cleanAmountFormat s) = none → format_amount (some s) = none) ∧
    (∀ s n sc, parsePyFloat (cleanAmountFormat s) = some (.num n sc) →
      format_amount (some s) =
        if n % (10 ^ sc : Int) = 0 then some (.int (n / 10 ^ sc))
        else some (.float (.num n sc))) ∧
    format_amount (some "1234,56") = some (.float (.num 123456 2)) ∧
    PyFloat.val (.num 123456 2) = (123456 : ℚ) / 100 ∧
    format_amount (some "€100") = some (.int 100) ∧
    format_amount (some "1,234.56") = none := by
  refine ⟨rfl, ?_, ?_, by decide, by norm_num [PyFloat.val], by decide, by decide⟩
  · intro s h
    simp [format_amount, h]
  · intro s n sc h
    by_cases hd : n % (10 ^ sc : Int) = 0 <;>
      simp [format_amount, h, PyFloat.isInteger, hd]

/-- Witness for C7 (amended): an unparseable amount yields `None`. -/
theorem C7_format_amount_witness : format_amount (some "abc") = none :=
  C7_format_amount.2.1 "abc" (by decide)

/-- C8 is false as stated: a `None` amount yields `"USD"`, not the
claimed default `"RUB"`. -/
theorem C8_counterexample :
    extract_currency none = "USD" ∧ ("USD" : String) ≠ "RUB" := by decide

/-- C8 (amended): currency is looked up from the amount string through
the bare-symbol table and defaults to RUB for non-null amounts without a
symbol; a null amount yields USD; `"€100"` gives EUR, `"100"` gives RUB. -/
theorem C8_currency_lookup :
    extract_currency (some "$1") = "USD" ∧
    extract_currency (some "€100") = "EUR" ∧
    extract_currency (some "₽1") = "RUB" ∧
    extract_currency (some "£1") = "GBP" ∧
    extract_currency (some "¥1") = "JPY" ∧
    extract_currency (some "100") = "RUB" ∧
    extract_currency none = "USD" ∧
    (∀ s : String, (∀ p ∈ currencyMap, p.1 ∉ s.data) →
      extract_currency (some s) = "RUB") := by
  refine ⟨by decide, by decide, by decide, by decide, by decide, by decide, rfl, ?_⟩
  intro s h
  have hn : currencyMap.find? (fun p => s.data.contains p.1) = none := by
    rw [List.find?_eq_none]
    intro x hx
    simpa using h x hx
  rw [extract_currency, hn]

/-- Witness for C8 (amended): `"100"` contains no symbol, so RUB. -/
theorem C8_currency_lookup_witness : extract_currency (some "100") = "RUB" :=
  C8_currency_lookup.2.2.2.2.2.2.2 "100" (by decide)

/-! ## Batch-dispatch lemmas -/

theorem range'_shift (t : Nat) :
    ∀ (k s step : Nat), List.range' (s + t) k step = (List.range' s k step).map (· + t) := by
  intro k
  induction k with
  | zero => intro s step; rfl
  | succ k ih =>
    intro s step
    rw [List.range'_succ, List.range'_succ, List.map_cons]
    congr 1
    rw [show s + t + step = s + step + t from by omega]
    exact ih (s + step) step

theorem ceilDiv_succ {n bs : Nat} (hbs : 0 < bs) (hn : 0 < n) :
    (n + bs - 1) / bs = (n - bs + bs - 1) / bs + 1 := by
  rcases le_or_lt n bs with h | h
  · have h1 : n - bs = 0 := by omega
    have h2 : (0 + bs - 1) / bs = 0 := Nat.div_eq_of_lt (by omega)
    have h3 : (n + bs - 1) / bs = 1 := Nat.div_eq_of_lt_le (by omega) (by omega)
    rw [h1, h2, h3]
  · have h4 : n + bs - 1 = (n - bs + bs - 1) + bs := by omega
    rw [h4, Nat.add_div_right _ hbs]

theorem pyRange_zero (bs : Nat) (hbs : 0 < bs) : pyRange 0 0 bs = [] := by
  unfold pyRange
  rw [show (0 - 0 + bs - 1) / bs = 0 from Nat.div_eq_of_lt (by omega)]
  rfl

theorem pyRange_pos {n bs : Nat} (hbs : 0 < bs) (hn : 0 < n) :
    pyRange 0 n bs = 0 :: (pyRange 0 (n - bs) bs).map (· + bs) := by
  unfold pyRange
  simp only [Nat.sub_zero]
  rw [ceilDiv_succ hbs hn, List.range'_succ]
  congr 1
  rw [Nat.zero_add]
  have h := range'_shift bs ((n - bs + bs - 1) / bs) 0 bs
  rwa [Nat.zero_add] at h

theorem batchesOf_flatten {α : Type} {bs : Nat} (hbs : 0 < bs) :
    ∀ (n : Nat) (l : List α), l.length = n → (batchesOf l bs).flatten = l := by
  intro n
  induction n using Nat.strong_induction_on with
  | _ n ih =>
    intro l hl
    cases n with
    | zero =>
      rw [List.length_eq_zero.mp hl]
      simp [batchesOf, pyRange_zero bs hbs]
    | succ m =>
      rw [batchesOf, hl, pyRange_pos hbs (Nat.succ_pos m), List.map_cons,
        List.flatten_cons, List.drop_zero, List.map_map]
      have hmap : (pyRange 0 (m + 1 - bs) bs).map ((fun i => (l.drop i).take bs) ∘ (· + bs))
          = (pyRange 0 (m + 1 - bs) bs).map (fun i => ((l.drop bs).drop i).take bs) := by
        apply List.map_congr_left
        intro i _
        simp only [Function.comp]
        rw [List.drop_drop, Nat.add_comm bs i]
      rw [hmap]
      have hlen : (l.drop bs).length = m + 1 - bs := by rw [List.length_drop, hl]
      have hrec := ih (m + 1 - bs) (by omega) (l.drop bs) hlen
      rw [batchesOf, hlen] at hrec
      rw [hrec, List.take_append_drop]

theorem batchesOf_size {α : Type} {l : List α} {bs : Nat} :
    ∀ b ∈ batchesOf l bs, b.length ≤ bs := by
  intro b hb
  rcases List.mem_map.mp hb with ⟨i, _, rfl⟩
  exact List.length_take_le _ _

theorem foldl_count {α : Type} (send : List α → Bool) :
    ∀ (bl : List (List α)) (a b : Nat),
      bl.foldl (fun acc x => if send x then (acc.1 + 1, acc.2) else (acc.1, acc.2 + 1)) (a, b)
        = (a + bl.countP send, b + bl.countP (fun x => !send x)) := by
  intro bl
  induction bl with
  | nil => intro a b; simp
  | cons x xs ih =>
    intro a b
    by_cases hx : send x = true <;>
      simp [List.foldl_cons, hx, ih, List.countP_cons] <;> omega

theorem batchCounts_eq {α : Type} (send : List α → Bool) (bl : List (List α)) :
    batchCounts send bl = (bl.countP send, bl.countP (fun x => !send x)) := by
  have h := foldl_count send bl 0 0
  simpa [batchCounts] using h

theorem countP_add_countP_not {α : Type} (p : α → Bool) :
    ∀ l : List α, l.countP p + l.countP (fun x => !p x) = l.length := by
  intro l
  induction l with
  | nil => simp
  | cons x xs ih =>
    by_cases hx : p x = true <;> simp [List.countP_cons, hx] <;> omega

/-- C2: `send_webhook_batch` cuts the payment list into consecutive
chunks of at most `batch_size` (their concatenation is the original
list, so order is preserved and nothing is dropped or duplicated),
attempts every chunk, counts successes and failures, and reports
`success` iff every chunk delivered; 120 payments with batch size 50
give batches of sizes 50, 50, 20, and failure of only the second batch
gives `success=false`, `batches_sent=2`, `failed_batches=1`. -/
theorem C2_send_webhook_batch :
    (∀ (send : List Nat → Bool) (ps : List Nat) (bs : Nat), 0 < bs →
      (batchesOf ps bs).flatten = ps ∧
      (∀ b ∈ batchesOf ps bs, b.length ≤ bs) ∧
      (send_webhook_batch send ps bs).totalPayments = ps.length ∧
      (send_webhook_batch send ps bs).batchesSent = (batchesOf ps bs).countP send ∧
      (send_webhook_batch send ps bs).failedBatches
        = (batchesOf ps bs).countP (fun b => !send b) ∧
      (send_webhook_batch send ps bs).batchesSent
          + (send_webhook_batch send ps bs).failedBatches = (batchesOf ps bs).length ∧
      ((send_webhook_batch send ps bs).success = true ↔
        ∀ b ∈ batchesOf ps bs, send b = true)) ∧
    ((batchesOf (List.range 120) 50).map List.length = [50, 50, 20] ∧
      (send_webhook_batch (fun b => b.head? != some 50) (List.range 120) 50).success = false ∧
      (send_webhook_batch (fun b => b.head? != some 50) (List.range 120) 50).batchesSent = 2 ∧
      (send_webhook_batch (fun b => b.head? != some 50) (List.range 120) 50).failedBatches = 1 ∧
      (send_webhook_batch (fun b => b.head? != some 50) (List.range 120) 50).totalPayments
        = 120) := by
  constructor
  · intro send ps bs hbs
    have hflat := batchesOf_flatten hbs ps.length ps rfl
    by_cases hemp : ps.isEmpty
    · have hnil : ps = [] := List.isEmpty_iff.mp hemp
      subst hnil
      have hb : batchesOf ([] : List Nat) bs = [] := by
        simp [batchesOf, pyRange_zero bs hbs]
      rw [hb] at hflat ⊢
      simp [send_webhook_batch]
    · have hbs0 : ¬bs = 0 := by omega
      have hcnt := batchCounts_eq send (batchesOf ps bs)
      refine ⟨hflat, batchesOf_size, ?_, ?_, ?_, ?_, ?_⟩ <;>
        simp only [send_webhook_batch, if_neg hemp, if_neg hbs0, hcnt]
      · exact countP_add_countP_not send (batchesOf ps bs)
      · simp only [decide_eq_true_eq]
        constructor
        · intro h0 b hb
          have hz := List.countP_eq_zero.mp h0 b hb
          simpa using hz
        · intro hall
          apply List.countP_eq_zero.mpr
          intro b hb
          simp [hall b hb]
  · refine ⟨by decide, by decide, by decide, by decide, by decide⟩

/-- Witness for C2: one batch of one payment flattens back to the list. -/
theorem C2_send_webhook_batch_witness :
    (batchesOf ([0] : List Nat) 1).flatten = [0] :=
  (C2_send_webhook_batch.1 (fun _ => true) [0] 1 (by decide)).1

/-! ## Ledger lemmas -/

theorem sort159 : ({1, 5, 9} : Finset ℕ).sort (· ≤ ·) = [1, 5, 9] := by
  have h1 : ∀ b ∈ (insert 5 {9} : Finset ℕ), 1 ≤ b := by decide
  have h2 : (1 : ℕ) ∉ (insert 5 {9} : Finset ℕ) := by decide
  have h3 : ∀ b ∈ ({9} : Finset ℕ), 5 ≤ b := by decide
  have h4 : (5 : ℕ) ∉ ({9} : Finset ℕ) := by decide
  rw [show ({1, 5, 9} : Finset ℕ) = insert 1 (insert 5 {9}) from rfl,
    Finset.sort_insert _ h1 h2, Finset.sort_insert _ h3 h4,
    Finset.sort_singleton _ 9]

/-- C9 is false as stated: Python `lst[-0:]` is the whole list, so
`cleanup_old_entries(0)` keeps every entry instead of the zero
numerically-largest ones (the empty set). -/
theorem C9_counterexample :
    (cleanup_old_entries ⟨{1, 5, 9}, {1, 5, 9}⟩ 0).mem = {1, 5, 9} ∧
    (cleanup_old_entries ⟨{1, 5, 9}, {1, 5, 9}⟩ 0).mem ≠ (∅ : Finset ℕ) := by
  have hmem : (cleanup_old_entries ⟨{1, 5, 9}, {1, 5, 9}⟩ 0).mem = {1, 5, 9} := by
    rw [cleanup_old_entries,
      if_pos (by decide : (0 : ℕ) < (TrackerState.mk {1, 5, 9} {1, 5, 9}).mem.card)]
    show (pySliceLast (({1, 5, 9} : Finset ℕ).sort (· ≤ ·)) 0).toFinset = {1, 5, 9}
    rw [sort159, pySliceLast, if_pos rfl]
    decide
  exact ⟨hmem, by rw [hmem]; decide⟩

/-- C9 (amended): for every ledger state and every `keep_last_n ≥ 1`,
`cleanup_old_entries` leaves the in-memory set equal to the
`keep_last_n` numerically largest of its previous members (unchanged,
with no write, when the set has at most `keep_last_n` members) and
persists the pruned set; on `{1,5,9}` with `keep_last_n = 2` it retains
exactly `{5,9}` in memory and on disk. -/
theorem C9_cleanup_old_entries :
    (∀ (st : TrackerState) (n : ℕ), 1 ≤ n →
      (cleanup_old_entries st n).mem ⊆ st.mem ∧
      (cleanup_old_entries st n).mem.card = min n st.mem.card ∧
      (∀ x ∈ st.mem, x ∉ (cleanup_old_entries st n).mem →
        ∀ y ∈ (cleanup_old_entries st n).mem, x < y) ∧
      (st.mem.card ≤ n → cleanup_old_entries st n = st) ∧
      (n < st.mem.card → (cleanup_old_entries st n).disk = (cleanup_old_entries st n).mem)) ∧
    cleanup_old_entries ⟨{1, 5, 9}, {1, 5, 9}⟩ 2 = ⟨{5, 9}, {5, 9}⟩ := by
  constructor
  · intro st n hn
    by_cases hlt : n < st.mem.card
    · have hcl : cleanup_old_entries st n =
          ⟨((st.mem.sort (· ≤ ·)).drop ((st.mem.sort (· ≤ ·)).length - n)).toFinset,
            ((st.mem.sort (· ≤ ·)).drop ((st.mem.sort (· ≤ ·)).length - n)).toFinset⟩ := by
        rw [cleanup_old_entries, if_pos hlt, pySliceLast, if_neg (by omega)]
      have hlen : (st.mem.sort (· ≤ ·)).length = st.mem.card := Finset.length_sort _
      have hsorted : (st.mem.sort (· ≤ ·)).Pairwise (· ≤ ·) := Finset.sort_sorted _ _
      have hnodup : (st.mem.sort (· ≤ ·)).Nodup := Finset.sort_nodup _ _
      have hsub : ∀ x ∈ (cleanup_old_entries st n).mem, x ∈ st.mem := by
        intro x hx
        rw [hcl] at hx
        have hx2 := List.mem_toFinset.mp hx
        have hx3 := (List.drop_sublist _ _).mem hx2
        exact (Finset.mem_sort _).mp hx3
      refine ⟨hsub, ?_, ?_, ?_, ?_⟩
      · rw [hcl]
        show (((st.mem.sort (· ≤ ·)).drop ((st.mem.sort (· ≤ ·)).length - n)).toFinset).card
          = min n st.mem.card
        rw [List.toFinset_card_of_nodup ((List.drop_sublist _ _).nodup hnodup),
          List.length_drop, hlen]
        omega
      · intro x hx hnx y hy
        rw [hcl] at hnx hy
        have hyL := List.mem_toFinset.mp hy
        have hxL : x ∈ st.mem.sort (· ≤ ·) := (Finset.mem_sort _).mpr hx
        have hxT : x ∈ (st.mem.sort (· ≤ ·)).take ((st.mem.sort (· ≤ ·)).length - n) := by
          have hsplit := List.take_append_drop
            ((st.mem.sort (· ≤ ·)).length - n) (st.mem.sort (· ≤ ·))
          rw [← hsplit] at hxL
          rcases List.mem_append.mp hxL with h | h
          · exact h
          · exact absurd (List.mem_toFinset.mpr h) hnx
        have hcross : ∀ a ∈ (st.mem.sort (· ≤ ·)).take ((st.mem.sort (· ≤ ·)).length - n),
            ∀ b ∈ (st.mem.sort (· ≤ ·)).drop ((st.mem.sort (· ≤ ·)).length - n), a ≤ b := by
          have hpw := hsorted
          rw [← List.take_append_drop ((st.mem.sort (· ≤ ·)).length - n)
            (st.mem.sort (· ≤ ·))] at hpw
          exact (List.pairwise_append.mp hpw).2.2
        have hle := hcross x hxT y hyL
        have hne : x ≠ y := by
          intro he
          subst he
          exact hnx (List.mem_toFinset.mpr hyL)
        omega
      · intro hle
        omega
      · intro _
        rw [hcl]
    · have hcl : cleanup_old_entries st n = st := by
        rw [cleanup_old_entries, if_neg hlt]
      rw [hcl]
      refine ⟨Finset.Subset.refl _, ?_, ?_, fun _ => rfl, fun h => absurd h hlt⟩
      · have : st.mem.card ≤ n := by omega
        omega
      · intro x hx hnx y hy
        exact absurd hx hnx
  · rw [cleanup_old_entries,
      if_pos (by decide : (2 : ℕ) < (TrackerState.mk {1, 5, 9} {1, 5, 9}).mem.card)]
    show (TrackerState.mk (pySliceLast (({1, 5, 9} : Finset ℕ).sort (· ≤ ·)) 2).toFinset
      (pySliceLast (({1, 5, 9} : Finset ℕ).sort (· ≤ ·)) 2).toFinset)
      = ⟨{5, 9}, {5, 9}⟩
    rw [sort159]
    decide

/-- Witness for C9 (amended): pruning `{1,5,9}` to the 2 largest. -/
theorem C9_cleanup_old_entries_witness :
    (cleanup_old_entries ⟨{1, 5, 9}, {1, 5, 9}⟩ 2).mem ⊆ ({1, 5, 9} : Finset ℕ) :=
  ((C9_cleanup_old_entries.1 ⟨{1, 5, 9}, {1, 5, 9}⟩ 2 (by decide)).1 : _)

/-! ## Payload-formatting lemmas -/

theorem formatAll_error :
    ∀ ps : List Payment, (∃ p ∈ ps, metadataTrigger p = true) →
      formatAll ps = .error () := by
  intro ps
  induction ps with
  | nil =>
    rintro ⟨p, hp, _⟩
    cases hp
  | cons q qs ih =>
    rintro ⟨p, hp, ht⟩
    rw [formatAll]
    rcases List.mem_cons.mp hp with h | h
    · subst h
      rw [formatOnePayment, if_pos ht]
    · cases hq : formatOnePayment q with
      | error e => rfl
      | ok fp => rw [ih ⟨p, h, ht⟩]

/-- C10: whenever some payment's `raw_data` holds one of the
`additional_fields` keys with a non-`None` value, the uninitialised
`"metadata"` dict raises `KeyError`, the whole batch is caught by the
fallback handler, and `format_payment_data` returns the error payload
with `payments_count 0` and no payments — dropping even the well-formed
payments of the batch. -/
theorem C10_metadata_keyerror :
    (∀ ps : List Payment, (∃ p ∈ ps, metadataTrigger p = true) →
      format_payment_data ps = ⟨0, [], true⟩) ∧
    format_payment_data
      [⟨some "C_516913", none, some "100", none, [], some "a.csv"⟩,
        ⟨some "2497", none, some "200", none, [("description", some "x")], some "a.csv"⟩]
      = ⟨0, [], true⟩ ∧
    (format_payment_data
      [⟨some "C_516913", none, some "100", none, [], some "a.csv"⟩]).paymentsCount = 1 ∧
    (format_payment_data
      [⟨some "C_516913", none, some "100", none, [], some "a.csv"⟩]).isError = false := by
  refine ⟨?_, by decide, by decide, by decide⟩
  intro ps hex
  rw [format_payment_data, formatAll_error ps hex]

/-- Witness for C10: a one-payment batch whose `raw_data` has a
`description` entry collapses to the error payload. -/
theorem C10_metadata_keyerror_witness :
    format_payment_data
      [⟨some "1", none, some "100", none, [("description", some "x")], none⟩]
      = ⟨0, [], true⟩ :=
  C10_metadata_keyerror.1
    [⟨some "1", none, some "100", none, [("description", some "x")], none⟩]
    (by decide)

/-- Witness for C5: a `None` amount is rejected. -/
theorem C5_validation_rules_witness : is_valid_payment none (some "-") = false :=
  C5_validation_rules.2.2 (some "-")
